import Mathlib

/-!
Verification of the concurrent resource-collection harness of
`prowler/providers/aws/lib/service/service.py` and its CloudFront
instantiation `prowler/providers/aws/services/cloudfront/cloudfront_service.py`.

The Python code is shallowly embedded: per-item callables become explicit
state transformers `σ → ι → σ × Except PyExc Unit` (a call may mutate shared
state and then raise; mutations made before the raise persist, as in Python);
the thread-pool barrier of `__threading_call__` is modelled as a fold over the
submitted items — `as_completed` yields futures in arbitrary completion order,
and every observable stated below (final state, invocation count, multiset of
outcomes, progress advances) is order-independent, so the fold fixes
submission order without loss.  Ghost fields (`invoked`, `results`,
`advances`, `taskTotal`) record the observables the specification talks
about; the Python code performs them as side effects (submitting a future,
`future.result()`, `task_progress_bar.update`).
-/

/-- Python exceptions that occur in the embedded fragment. -/
inductive PyExc : Type
  | typeError
  | attributeError
  | keyError
  | valueError
  | validationError
  | clientError
deriving DecidableEq

instance {ε α : Type} [DecidableEq ε] [DecidableEq α] : DecidableEq (Except ε α) :=
  fun x y =>
    match x, y with
    | Except.ok a, Except.ok b =>
        if h : a = b then Decidable.isTrue (by rw [h])
        else Decidable.isFalse (by intro hh; injection hh; contradiction)
    | Except.ok _, Except.error _ => Decidable.isFalse (by intro hh; cases hh)
    | Except.error _, Except.ok _ => Decidable.isFalse (by intro hh; cases hh)
    | Except.error e, Except.error e' =>
        if h : e = e' then Decidable.isTrue (by rw [h])
        else Decidable.isFalse (by intro hh; injection hh; contradiction)

/-- `true` iff an `Except` value is a success (the call did not raise). -/
def exceptIsOk {ε α : Type} : Except ε α → Bool
  | Except.ok _ => true
  | Except.error _ => false

/-- Observables of one `__threading_call__` run (service.py lines 70-115):
the shared state after the barrier, how many per-item invocations were
dispatched, the per-item outcomes in submission order, the progress task
created before dispatch (`some total` when the live display is enabled,
line 91-96), and how many times the task was advanced (line 107-109). -/
structure ThreadingResult (σ : Type) : Type where
  state : σ
  invoked : Nat
  results : List (Except PyExc Unit)
  taskTotal : Option Nat
  advances : Nat
deriving DecidableEq

/-- One iteration of the completion loop of `__threading_call__`
(service.py lines 104-112): take the item's outcome via `future.result()`;
the progress task is advanced only when the result did not raise (the
`update` on line 109 sits after `future.result()` inside the `try`), and an
exception is swallowed by the bare `except Exception: pass` (lines 110-112). -/
def threadingStep {σ ι : Type} (enabled : Bool)
    (call : σ → ι → σ × Except PyExc Unit)
    (acc : ThreadingResult σ) (item : ι) : ThreadingResult σ :=
  let p := call acc.state item
  { state := p.1
    invoked := acc.invoked + 1
    results := acc.results ++ [p.2]
    taskTotal := acc.taskTotal
    advances := acc.advances + (if enabled && exceptIsOk p.2 then 1 else 0) }

/-- The dispatch-and-barrier core of `__threading_call__` (service.py lines
91-112): when the live display is enabled a progress task is created before
dispatch with `total = item_count` (lines 93-95), one invocation per item is
submitted to the pool (lines 99-101), and the loop over `as_completed`
(lines 104-112) drains every future. -/
def threadingCallCore {σ ι : Type} (enabled : Bool)
    (call : σ → ι → σ × Except PyExc Unit)
    (items : List ι) (st : σ) : ThreadingResult σ :=
  items.foldl (threadingStep enabled call)
    { state := st
      invoked := 0
      results := []
      taskTotal := if enabled then Option.some items.length else Option.none
      advances := 0 }

/-- The slice of `AWSService.__init__` state the embedded fragment reads
(service.py lines 25-65): `regional_clients` is an attribute only when the
service is not global (lines 43-46) — `Option.none` models the attribute
never having been assigned; the live-display flag (lines 57-65) and the
thread pool's worker bound (line 55) are fixed at construction. -/
structure AWSServiceState (ι : Type) : Type where
  regional_clients : Option (List ι)
  live_display_enabled : Bool
  pool_max_workers : Nat

/-- `MAX_WORKERS` (service.py line 13). -/
def MAX_WORKERS : Nat := 10

/-- `AWSService.__init__` (service.py lines 25-65), restricted to the fields
above: `generated` stands for the value `provider.generate_regional_clients`
would return, which is assigned to `self.regional_clients` only when
`global_service` is false (lines 43-46); the thread pool is created once with
`max_workers=MAX_WORKERS` (line 55). -/
def awsServiceConstructor {ι : Type} (global_service : Bool)
    (generated : List ι) (liveDisplay : Bool) : AWSServiceState ι :=
  { regional_clients := if global_service then Option.none else Option.some generated
    live_display_enabled := liveDisplay
    pool_max_workers := MAX_WORKERS }

/-- `__threading_call__` in full (service.py lines 70-115): line 72 picks the
provided iterator, or falls back to `self.regional_clients.values()`; on a
global-service collector that attribute was never assigned, so the fallback
raises `AttributeError` before the `try` of the completion loop — nothing in
the function catches it. -/
def threadingCall {σ ι : Type} (svc : AWSServiceState ι)
    (call : σ → ι → σ × Except PyExc Unit)
    (iterator : Option (List ι)) (st : σ) :
    Except PyExc (ThreadingResult σ) :=
  match iterator with
  | Option.some items =>
      Except.ok (threadingCallCore svc.live_display_enabled call items st)
  | Option.none =>
      match svc.regional_clients with
      | Option.some clients =>
          Except.ok (threadingCallCore svc.live_display_enabled call clients st)
      | Option.none => Except.error PyExc.attributeError

/-- Observables of one run of a function wrapped by
`AWSService.progress_decorator` (service.py lines 117-145). -/
structure DecoratorResult (σ α : Type) : Type where
  result : σ × Except PyExc α
  tasksCreated : Nat
  advances : Nat

/-- `progress_decorator`'s wrapper (service.py lines 124-143): when the live
display is enabled a one-unit task is created before the call (lines
131-135); the wrapped function runs (line 137) — if it raises, the exception
propagates out of the wrapper unchanged and the advance on line 140 is never
reached; on success the task is advanced once and the value returned. -/
def progressDecoratorRun {σ α : Type} (enabled : Bool)
    (func : σ → σ × Except PyExc α) (st : σ) : DecoratorResult σ α :=
  { result := func st
    tasksCreated := if enabled then 1 else 0
    advances := if enabled && exceptIsOk (func st).2 then 1 else 0 }

/-! ## CloudFront instantiation (cloudfront_service.py) -/

/-- `GeoRestrictionType` (cloudfront_service.py lines 123-128). -/
inductive GeoRestrictionType : Type
  | none
  | blacklist
  | whitelist
deriving DecidableEq

/-- `ViewerProtocolPolicy` (cloudfront_service.py lines 115-120). -/
inductive ViewerProtocolPolicy : Type
  | allow_all
  | redirect_to_https
  | https_only
deriving DecidableEq

/-- `GeoRestrictionType(value)`: Python enum lookup by value, raising
`ValueError` when the string is not a member. -/
def geoRestrictionTypeOfString (s : String) : Except PyExc GeoRestrictionType :=
  if s = "none" then Except.ok GeoRestrictionType.none
  else if s = "blacklist" then Except.ok GeoRestrictionType.blacklist
  else if s = "whitelist" then Except.ok GeoRestrictionType.whitelist
  else Except.error PyExc.valueError

/-- `ViewerProtocolPolicy(value)`: enum lookup by value; the argument is the
result of a `.get`, so it may be absent (`None`), which is not a member. -/
def viewerProtocolPolicyOfString (s : Option String) : Except PyExc ViewerProtocolPolicy :=
  match s with
  | Option.some "allow-all" => Except.ok ViewerProtocolPolicy.allow_all
  | Option.some "redirect-to-https" => Except.ok ViewerProtocolPolicy.redirect_to_https
  | Option.some "https-only" => Except.ok ViewerProtocolPolicy.https_only
  | _ => Except.error PyExc.valueError

/-- `DefaultCacheConfigBehaviour` (cloudfront_service.py lines 131-134). -/
structure DefaultCacheConfigBehaviour : Type where
  realtime_log_config_arn : Option String
  viewer_protocol_policy : ViewerProtocolPolicy
  field_level_encryption_id : String
deriving DecidableEq

/-- `Distribution` (cloudfront_service.py lines 137-148), with the pydantic
defaults of the fields the list stage does not set. -/
structure Distribution : Type where
  arn : String
  id : String
  region : String
  logging_enabled : Bool := false
  default_cache_config : Option DefaultCacheConfigBehaviour := Option.none
  geo_restriction_type : Option GeoRestrictionType := Option.none
  origins : List String
  web_acl_id : String := ""
  tags : Option (List String) := Option.some []
deriving DecidableEq

/-- `self.distributions`: a Python dict keyed by distribution id, modelled as
an association list with unique keys; assignment to an existing key replaces
its value in place, assignment to a fresh key appends. -/
abbrev Catalog : Type := List (String × Distribution)

/-- Dict assignment `self.distributions[k] = v`. -/
def catInsert (cat : Catalog) (k : String) (v : Distribution) : Catalog :=
  match cat with
  | [] => [(k, v)]
  | (k', v') :: rest =>
      if k' = k then (k, v) :: rest else (k', v') :: catInsert rest k v

/-- Dict lookup `self.distributions.get(k)`. -/
def catLookup (cat : Catalog) (k : String) : Option Distribution :=
  match cat with
  | [] => Option.none
  | (k', v') :: rest => if k' = k then Option.some v' else catLookup rest k

/-- The dict's key view, in insertion order (what iterating the dict yields). -/
def catKeys (cat : Catalog) : List String :=
  cat.map Prod.fst

/-- In-place mutation of the record stored at key `k`
(`self.distributions[k].field = value`). -/
def catUpdate (cat : Catalog) (k : String) (f : Distribution → Distribution) : Catalog :=
  match cat with
  | [] => []
  | (k', v') :: rest =>
      if k' = k then (k', f v') :: rest else (k', v') :: catUpdate rest k f

/-- `self.distributions[k].field = value` including the failure mode: the
subscript raises `KeyError` when `k` is not a key of the dict, in which case
nothing is mutated. -/
def catUpdateE (cat : Catalog) (k : String) (f : Distribution → Distribution) :
    Catalog × Except PyExc Unit :=
  if (catLookup cat k).isSome then (catUpdate cat k f, Except.ok ())
  else (cat, Except.error PyExc.keyError)

/-- One element of `page["DistributionList"]["Items"]`: the fields
`__list_distributions__` reads (`Id`, `ARN`, `Origins.Items`). -/
structure ListItem : Type where
  id : String
  arn : String
  origins : List String
deriving DecidableEq

/-- The response of `client.get_distribution_config(Id=...)`: the fields the
enrichment stage reads.  `viewer_protocol_policy_raw` and
`field_level_encryption_id_raw` are read with `.get`, hence optional. -/
structure DistributionConfigResponse : Type where
  logging_enabled : Bool
  geo_restriction_type_raw : String
  web_acl_id : String
  realtime_log_config_arn : Option String
  viewer_protocol_policy_raw : Option String
  field_level_encryption_id_raw : Option String
deriving DecidableEq

/-- The provider-SDK client surface the CloudFront collector calls (external
collaborator, §6 of the spec): the `list_distributions` paginator's pages
(`Option.none` for a page whose `DistributionList` has no `Items` key), plus
the two per-resource calls, each of which may raise. -/
structure CloudFrontClient : Type where
  pages : List (Option (List ListItem))
  getDistributionConfig : String → Except PyExc DistributionConfigResponse
  listTagsForResource : String → Except PyExc (Option (List String))

/-- The `Distribution(...)` constructor call of the list stage
(cloudfront_service.py lines 43-48): only `arn`, `id`, `origins`, `region`
are passed; every other field keeps its pydantic default. -/
def mkDistribution (item : ListItem) (region : String) : Distribution :=
  { arn := item.arn
    id := item.id
    region := region
    origins := item.origins }

/-- `__list_distributions__` (cloudfront_service.py lines 30-54): for each
page, if the page has `Items`, each item whose ARN passes the scope check
(`not self.audit_resources or is_resource_filtered(...)`, lines 37-39 —
`audit_resources` is falsy when empty) is turned into a `Distribution` and
assigned into the dict keyed by its `Id`.  The whole body sits in a
`try/except` that logs and swallows any exception, so the stage always
returns normally.  `isResourceFiltered` is the external scope-filter
predicate `is_resource_filtered(arn, audit_resources)`. -/
def listDistributions (audit_resources : List String)
    (isResourceFiltered : String → Bool) (region : String)
    (pages : List (Option (List ListItem))) (cat : Catalog) : Catalog :=
  pages.foldl
    (fun c page =>
      match page with
      | Option.none => c
      | Option.some items =>
          items.foldl
            (fun c' item =>
              if audit_resources.isEmpty || isResourceFiltered item.arn then
                catInsert c' item.id (mkDistribution item region)
              else c')
            c)
    cat

/-- `__get_distribution_config__`'s body (cloudfront_service.py lines 56-95),
statement by statement inside its `try`: fetch the config (line 58, may
raise); set `logging_enabled` (lines 60-62; the subscript on the dict may
raise `KeyError`); parse and set `geo_restriction_type` (lines 63-69, the
enum lookup may raise `ValueError`); set `web_acl_id` (lines 70-72); build
`DefaultCacheConfigBehaviour` (lines 75-87: the `ViewerProtocolPolicy` enum
lookup runs first, then pydantic rejects a missing
`field_level_encryption_id`) and set it (lines 88-90).  A raise at any point
is caught by the `except` (lines 92-95), which only logs — mutations already
performed persist. -/
def getDistributionConfigBody (client : CloudFrontClient)
    (distribution_id : String) (_region : String) (cat : Catalog) : Catalog :=
  match client.getDistributionConfig distribution_id with
  | Except.error _ => cat
  | Except.ok cfg =>
    match catUpdateE cat distribution_id
        (fun d => { d with logging_enabled := cfg.logging_enabled }) with
    | (c1, Except.error _) => c1
    | (c1, Except.ok _) =>
      match geoRestrictionTypeOfString cfg.geo_restriction_type_raw with
      | Except.error _ => c1
      | Except.ok grt =>
        match catUpdateE c1 distribution_id
            (fun d => { d with geo_restriction_type := Option.some grt }) with
        | (c2, Except.error _) => c2
        | (c2, Except.ok _) =>
          match catUpdateE c2 distribution_id
              (fun d => { d with web_acl_id := cfg.web_acl_id }) with
          | (c3, Except.error _) => c3
          | (c3, Except.ok _) =>
            match viewerProtocolPolicyOfString cfg.viewer_protocol_policy_raw with
            | Except.error _ => c3
            | Except.ok vpp =>
              match cfg.field_level_encryption_id_raw with
              | Option.none => c3
              | Option.some fle =>
                let dcc : DefaultCacheConfigBehaviour :=
                  { realtime_log_config_arn := cfg.realtime_log_config_arn
                    viewer_protocol_policy := vpp
                    field_level_encryption_id := fle }
                (catUpdateE c3 distribution_id
                  (fun d => { d with default_cache_config := Option.some dcc })).1

/-- `__list_tags_for_resource__`'s body (cloudfront_service.py lines 97-105)
acting on the distribution record it receives: fetch the tags of
`distribution.arn` (may raise) and set `distribution.tags` to
`response.get("Items")`; the `except` swallows a raise, leaving the record
unchanged. -/
def listTagsForResourceBody (client : CloudFrontClient) (d : Distribution) :
    Distribution :=
  match client.listTagsForResource d.arn with
  | Except.ok items => { d with tags := items }
  | Except.error _ => d

/-- The catalog effect of `__list_tags_for_resource__` for the entry at key
`k`: the record object stored in the dict is mutated in place. -/
def listTagsForResourceStage (client : CloudFrontClient) (cat : Catalog)
    (k : String) : Catalog :=
  catUpdate cat k (listTagsForResourceBody client)

/-- The per-item call that `CloudFront.__init__` actually dispatches for both
enrichment stages (cloudfront_service.py lines 18-27): the call site passes
`args=(self.client, self.region)`, but `__threading_call__`'s signature
`(self, call, iterator=None, *args, **kwargs)` collects that into `**kwargs`
as the keyword `args`, so each worker executes
`call(item, args=(client, region))`.  Neither `__get_distribution_config__`
nor `__list_tags_for_resource__` has a parameter named `args`, so the
invocation raises `TypeError` before either function body runs: the shared
catalog is untouched and the outcome recorded by the barrier is the raise. -/
def dispatchedEnrichmentCall (cat : Catalog) (_item : String) :
    Catalog × Except PyExc Unit :=
  (cat, Except.error PyExc.typeError)

/-- `CloudFront.__init__` (cloudfront_service.py lines 13-27):
`super().__init__` with `global_service=True`; `self.distributions = {}`;
the list stage (run through `progress_decorator`, whose wrapper passes the
value and any raise through unchanged); then two `__threading_call__`
fan-outs whose iterator is the `self.distributions` dict — iterating a dict
yields its keys — and whose dispatched calls are `dispatchedEnrichmentCall`.
Returns the final catalog, or the exception if one escapes. -/
def cloudFrontConstructor (liveDisplay : Bool) (audit_resources : List String)
    (isResourceFiltered : String → Bool) (client : CloudFrontClient)
    (region : String) : Except PyExc Catalog :=
  let svc : AWSServiceState String := awsServiceConstructor true [] liveDisplay
  let cat1 : Catalog :=
    listDistributions audit_resources isResourceFiltered region client.pages []
  match threadingCall svc dispatchedEnrichmentCall (Option.some (catKeys cat1)) cat1 with
  | Except.error e => Except.error e
  | Except.ok r2 =>
    match threadingCall svc dispatchedEnrichmentCall
        (Option.some (catKeys r2.state)) r2.state with
    | Except.error e => Except.error e
    | Except.ok r3 => Except.ok r3.state

/-! ## Bounded worker pool (the `ThreadPoolExecutor` of service.py line 55)

The executor is an external collaborator; its scheduling contract is modelled
as a small-step transition system: a submitted invocation is `pending` until
a worker picks it up, `running` while a worker executes it, and `done` when
it completes (successfully or not).  A worker may pick up a pending
invocation only while fewer than `poolSize` invocations are running. -/

/-- Counts of pending / running / completed per-item invocations of one
fan-out stage. -/
structure PoolState : Type where
  pending : Nat
  running : Nat
  done : Nat
deriving DecidableEq

/-- One scheduling step of a pool bounded by `poolSize`: start a pending
invocation when a worker slot is free, or finish a running one. -/
inductive PoolStep (poolSize : Nat) : PoolState → PoolState → Prop
  | start (p r d : Nat) : r < poolSize →
      PoolStep poolSize ⟨p + 1, r, d⟩ ⟨p, r + 1, d⟩
  | finish (p r d : Nat) :
      PoolStep poolSize ⟨p, r + 1, d⟩ ⟨p, r, d + 1⟩

/-- States reachable during a fan-out of `n` items over a pool bounded by
`poolSize`, starting from all `n` invocations pending. -/
inductive PoolReachable (poolSize n : Nat) : PoolState → Prop
  | init : PoolReachable poolSize n ⟨n, 0, 0⟩
  | step {s t : PoolState} : PoolReachable poolSize n s →
      PoolStep poolSize s t → PoolReachable poolSize n t

/-! ## Helper lemmas -/

theorem threadingStep_invoked {σ ι : Type} (enabled : Bool)
    (call : σ → ι → σ × Except PyExc Unit) (acc : ThreadingResult σ) (item : ι) :
    (threadingStep enabled call acc item).invoked = acc.invoked + 1 := rfl

theorem threadingFold_invoked {σ ι : Type} (enabled : Bool)
    (call : σ → ι → σ × Except PyExc Unit) :
    ∀ (items : List ι) (acc : ThreadingResult σ),
      (items.foldl (threadingStep enabled call) acc).invoked =
        acc.invoked + items.length := by
  intro items
  induction items with
  | nil => intro acc; simp
  | cons x t ih =>
      intro acc
      simp only [List.foldl_cons, ih, threadingStep_invoked, List.length_cons]
      omega

theorem threadingFold_results_length {σ ι : Type} (enabled : Bool)
    (call : σ → ι → σ × Except PyExc Unit) :
    ∀ (items : List ι) (acc : ThreadingResult σ),
      (items.foldl (threadingStep enabled call) acc).results.length =
        acc.results.length + items.length := by
  intro items
  induction items with
  | nil => intro acc; simp
  | cons x t ih =>
      intro acc
      simp only [List.foldl_cons, ih, threadingStep, List.length_append,
        List.length_cons, List.length_nil]
      omega

theorem threadingFold_taskTotal {σ ι : Type} (enabled : Bool)
    (call : σ → ι → σ × Except PyExc Unit) :
    ∀ (items : List ι) (acc : ThreadingResult σ),
      (items.foldl (threadingStep enabled call) acc).taskTotal = acc.taskTotal := by
  intro items
  induction items with
  | nil => intro acc; rfl
  | cons x t ih => intro acc; simp only [List.foldl_cons, ih]; rfl

/-- With the live display enabled, the advance counter tracks exactly the
successful outcomes recorded so far. -/
theorem threadingFold_advances_true {σ ι : Type}
    (call : σ → ι → σ × Except PyExc Unit) :
    ∀ (items : List ι) (acc : ThreadingResult σ),
      acc.advances = acc.results.countP (fun x => exceptIsOk x) →
      (items.foldl (threadingStep true call) acc).advances =
        (items.foldl (threadingStep true call) acc).results.countP
          (fun x => exceptIsOk x) := by
  intro items
  induction items with
  | nil => intro acc h; simpa using h
  | cons x t ih =>
      intro acc h
      simp only [List.foldl_cons]
      apply ih
      simp only [threadingStep, List.countP_append, h, Bool.true_and]
      cases hr : exceptIsOk (call acc.state x).2 <;>
        simp [List.countP_cons, hr]

/-- With the live display disabled, the advance counter never moves. -/
theorem threadingFold_advances_false {σ ι : Type}
    (call : σ → ι → σ × Except PyExc Unit) :
    ∀ (items : List ι) (acc : ThreadingResult σ),
      (items.foldl (threadingStep false call) acc).advances = acc.advances := by
  intro items
  induction items with
  | nil => intro acc; rfl
  | cons x t ih =>
      intro acc
      simp [List.foldl_cons, ih, threadingStep]

/-- The shared state, the invocation count, and the recorded outcomes do not
depend on whether the live display is enabled. -/
theorem threadingFold_enabled_irrelevant {σ ι : Type}
    (call : σ → ι → σ × Except PyExc Unit) (e1 e2 : Bool) :
    ∀ (items : List ι) (acc1 acc2 : ThreadingResult σ),
      acc1.state = acc2.state → acc1.invoked = acc2.invoked →
      acc1.results = acc2.results →
      (items.foldl (threadingStep e1 call) acc1).state =
        (items.foldl (threadingStep e2 call) acc2).state ∧
      (items.foldl (threadingStep e1 call) acc1).invoked =
        (items.foldl (threadingStep e2 call) acc2).invoked ∧
      (items.foldl (threadingStep e1 call) acc1).results =
        (items.foldl (threadingStep e2 call) acc2).results := by
  intro items
  induction items with
  | nil => intro acc1 acc2 hs hi hr; exact ⟨hs, hi, hr⟩
  | cons x t ih =>
      intro acc1 acc2 hs hi hr
      simp only [List.foldl_cons]
      apply ih
      · simp only [threadingStep, hs]
      · simp only [threadingStep, hi]
      · simp only [threadingStep, hs, hr]

/-- When the per-item call's outcome depends only on the item (the effect on
the shared state may still be arbitrary), the recorded outcomes are exactly
the per-item outcomes, in order. -/
theorem threadingFold_factored_results {σ ι : Type} (enabled : Bool)
    (eff : ι → σ → σ) (o : ι → Except PyExc Unit) :
    ∀ (items : List ι) (acc : ThreadingResult σ),
      (items.foldl (threadingStep enabled (fun s i => (eff i s, o i))) acc).results =
        acc.results ++ items.map o := by
  intro items
  induction items with
  | nil => intro acc; simp
  | cons x t ih =>
      intro acc
      simp only [List.foldl_cons, ih, threadingStep, List.map_cons,
        List.append_assoc, List.singleton_append]

theorem catLookup_catInsert_self (cat : Catalog) (k : String) (v : Distribution) :
    catLookup (catInsert cat k v) k = Option.some v := by
  induction cat with
  | nil => simp [catInsert, catLookup]
  | cons hd tl ih =>
      obtain ⟨k', v'⟩ := hd
      by_cases h : k' = k <;> simp [catInsert, catLookup, h, ih]

theorem catLookup_catInsert_ne (cat : Catalog) (k k' : String) (v : Distribution)
    (h : k' ≠ k) : catLookup (catInsert cat k v) k' = catLookup cat k' := by
  have hkk : ¬k = k' := fun hh => h hh.symm
  induction cat with
  | nil => simp [catInsert, catLookup, hkk]
  | cons hd tl ih =>
      obtain ⟨k0, v0⟩ := hd
      by_cases h0 : k0 = k
      · subst h0
        simp [catInsert, catLookup, hkk]
      · by_cases h1 : k0 = k'
        · simp [catInsert, catLookup, h0, h1, h]
        · simp [catInsert, catLookup, h0, h1, ih]

theorem catKeys_catInsert (cat : Catalog) (k : String) (v : Distribution) :
    catKeys (catInsert cat k v) =
      if k ∈ catKeys cat then catKeys cat else catKeys cat ++ [k] := by
  induction cat with
  | nil => simp [catInsert, catKeys]
  | cons hd tl ih =>
      obtain ⟨k0, v0⟩ := hd
      by_cases h0 : k0 = k
      · subst h0
        simp [catInsert, catKeys]
      · have hne : ¬k = k0 := fun hh => h0 hh.symm
        simp only [catInsert, if_neg h0, catKeys, List.map_cons] at *
        by_cases hm : k ∈ List.map Prod.fst tl <;>
          simp [hm, hne, ih]

theorem catKeys_nodup_catInsert (cat : Catalog) (k : String) (v : Distribution)
    (h : (catKeys cat).Nodup) : (catKeys (catInsert cat k v)).Nodup := by
  rw [catKeys_catInsert]
  by_cases hm : k ∈ catKeys cat
  · simpa [hm] using h
  · simp only [hm, if_false]
    rw [List.nodup_append]
    exact ⟨h, List.nodup_singleton k, by simpa using hm⟩

theorem catKeys_catUpdate (cat : Catalog) (k : String)
    (f : Distribution → Distribution) : catKeys (catUpdate cat k f) = catKeys cat := by
  induction cat with
  | nil => rfl
  | cons hd tl ih =>
      obtain ⟨k0, v0⟩ := hd
      by_cases h0 : k0 = k
      · simp [catUpdate, catKeys, h0]
      · simp only [catUpdate, if_neg h0, catKeys, List.map_cons]
        simpa [catKeys] using ih

theorem catLookup_catUpdate_self (cat : Catalog) (k : String)
    (f : Distribution → Distribution) :
    catLookup (catUpdate cat k f) k = (catLookup cat k).map f := by
  induction cat with
  | nil => rfl
  | cons hd tl ih =>
      obtain ⟨k0, v0⟩ := hd
      by_cases h0 : k0 = k <;> simp [catUpdate, catLookup, h0, ih]

theorem catLookup_catUpdate_ne (cat : Catalog) (k k' : String)
    (f : Distribution → Distribution) (h : k' ≠ k) :
    catLookup (catUpdate cat k f) k' = catLookup cat k' := by
  have hkk : ¬k = k' := fun hh => h hh.symm
  induction cat with
  | nil => rfl
  | cons hd tl ih =>
      obtain ⟨k0, v0⟩ := hd
      by_cases h0 : k0 = k
      · subst h0
        simp [catUpdate, catLookup, hkk]
      · by_cases h1 : k0 = k'
        · simp [catUpdate, catLookup, h0, h1, h]
        · simp [catUpdate, catLookup, h0, h1, ih]

/-- The identifier skeleton of the catalog: same keys in the same order, and
every stored record keeps its `id`, `arn`, `region` and `origins` — only the
enrichment fields (`logging_enabled`, `geo_restriction_type`, `web_acl_id`,
`default_cache_config`, `tags`) may differ. -/
def SkeletonEq (cat cat' : Catalog) : Prop :=
  catKeys cat' = catKeys cat ∧
  ∀ k : String,
    (catLookup cat' k).map Distribution.id = (catLookup cat k).map Distribution.id ∧
    (catLookup cat' k).map Distribution.arn = (catLookup cat k).map Distribution.arn ∧
    (catLookup cat' k).map Distribution.region = (catLookup cat k).map Distribution.region ∧
    (catLookup cat' k).map Distribution.origins = (catLookup cat k).map Distribution.origins

theorem SkeletonEq.rfl (cat : Catalog) : SkeletonEq cat cat :=
  ⟨Eq.refl _, fun _ => ⟨Eq.refl _, Eq.refl _, Eq.refl _, Eq.refl _⟩⟩

theorem SkeletonEq.trans {a b c : Catalog} (h1 : SkeletonEq a b)
    (h2 : SkeletonEq b c) : SkeletonEq a c := by
  refine ⟨h2.1.trans h1.1, fun k => ?_⟩
  obtain ⟨i1, a1, r1, o1⟩ := h1.2 k
  obtain ⟨i2, a2, r2, o2⟩ := h2.2 k
  exact ⟨i2.trans i1, a2.trans a1, r2.trans r1, o2.trans o1⟩

/-- A record updater touches only enrichment fields. -/
def PreservesSkeleton (f : Distribution → Distribution) : Prop :=
  ∀ d : Distribution, (f d).id = d.id ∧ (f d).arn = d.arn ∧
    (f d).region = d.region ∧ (f d).origins = d.origins

theorem skeletonEq_catUpdate (cat : Catalog) (k : String)
    (f : Distribution → Distribution) (hf : PreservesSkeleton f) :
    SkeletonEq cat (catUpdate cat k f) := by
  refine ⟨catKeys_catUpdate cat k f, fun k' => ?_⟩
  by_cases hk : k' = k
  · subst hk
    rw [catLookup_catUpdate_self]
    cases hv : catLookup cat k' with
    | none => simp
    | some d =>
        obtain ⟨hi, ha, hr, ho⟩ := hf d
        simp [hi, ha, hr, ho]
  · rw [catLookup_catUpdate_ne cat k k' f hk]
    exact ⟨Eq.refl _, Eq.refl _, Eq.refl _, Eq.refl _⟩

theorem skeletonEq_catUpdateE (cat : Catalog) (k : String)
    (f : Distribution → Distribution) (hf : PreservesSkeleton f) :
    SkeletonEq cat (catUpdateE cat k f).1 := by
  unfold catUpdateE
  by_cases hs : (catLookup cat k).isSome <;>
    simp only [hs, if_true, if_false]
  · exact skeletonEq_catUpdate cat k f hf
  · exact SkeletonEq.rfl cat

/-- The per-item insertion the list stage performs
(`self.distributions[item.Id] = Distribution(...)`). -/
def insDist (region : String) (c : Catalog) (it : ListItem) : Catalog :=
  catInsert c it.id (mkDistribution it region)

/-- The scope check of the list stage (cloudfront_service.py lines 37-39). -/
def inScopeCheck (audit_resources : List String)
    (isResourceFiltered : String → Bool) (it : ListItem) : Bool :=
  audit_resources.isEmpty || isResourceFiltered it.arn

/-- The items the list stage accepts, flattened in page order. -/
def inScopeItems (audit_resources : List String)
    (isResourceFiltered : String → Bool)
    (pages : List (Option (List ListItem))) : List ListItem :=
  ((pages.filterMap id).flatten).filter (inScopeCheck audit_resources isResourceFiltered)

theorem foldl_guarded_eq_foldl_filter {α β : Type} (p : α → Bool) (g : β → α → β) :
    ∀ (l : List α) (c : β),
      l.foldl (fun c' a => if p a then g c' a else c') c = (l.filter p).foldl g c := by
  intro l
  induction l with
  | nil => intro c; rfl
  | cons x t ih =>
      intro c
      by_cases hx : p x <;> simp [List.filter_cons, hx, ih]

/-- The nested page/item loops of `__list_distributions__` insert exactly the
flattened in-scope items, in page order. -/
theorem listDistributions_eq_foldl_inScope (audit_resources : List String)
    (isResourceFiltered : String → Bool) (region : String) :
    ∀ (pages : List (Option (List ListItem))) (cat : Catalog),
      listDistributions audit_resources isResourceFiltered region pages cat =
        (inScopeItems audit_resources isResourceFiltered pages).foldl
          (insDist region) cat := by
  intro pages
  induction pages with
  | nil => intro cat; rfl
  | cons p pt ih =>
      intro cat
      cases p with
      | none =>
          simp only [listDistributions, List.foldl_cons] at *
          simpa [inScopeItems] using ih cat
      | some items =>
          simp only [listDistributions, List.foldl_cons] at *
          rw [ih]
          simp only [inScopeItems, List.filterMap_cons, id, List.flatten_cons,
            List.filter_append, List.foldl_append]
          rw [foldl_guarded_eq_foldl_filter]
          rfl

theorem catLookup_foldl_insDist (region : String) :
    ∀ (l : List ListItem) (c : Catalog) (k : String),
      catLookup (l.foldl (insDist region) c) k =
        match (l.filter (fun it => it.id == k)).getLast? with
        | Option.some it => Option.some (mkDistribution it region)
        | Option.none => catLookup c k := by
  intro l
  induction l with
  | nil => intro c k; rfl
  | cons x t ih =>
      intro c k
      simp only [List.foldl_cons]
      rw [ih]
      by_cases hx : x.id = k
      · have hxb : (x.id == k) = true := by simpa using hx
        cases ht : t.filter (fun it => it.id == k) with
        | nil =>
            simp only [List.filter_cons, hxb, if_true, ht]
            unfold insDist
            rw [hx, catLookup_catInsert_self]
            rfl
        | cons y ys =>
            simp only [List.filter_cons, hxb, if_true, ht, List.getLast?_cons_cons]
            cases hgl : (y :: ys).getLast? with
            | none =>
                rw [List.getLast?_eq_none_iff] at hgl
                cases hgl
            | some z => rfl
      · have hxb : (x.id == k) = false := by simpa using hx
        cases ht : t.filter (fun it => it.id == k) with
        | nil =>
            simp only [List.filter_cons, hxb, Bool.false_eq_true, if_false, ht]
            unfold insDist
            rw [catLookup_catInsert_ne _ _ _ _ (fun hh => hx hh.symm)]
        | cons y ys =>
            simp only [List.filter_cons, hxb, Bool.false_eq_true, if_false, ht]
            cases hgl : (y :: ys).getLast? with
            | none =>
                rw [List.getLast?_eq_none_iff] at hgl
                cases hgl
            | some z => rfl

theorem catKeys_nodup_foldl_insDist (region : String) :
    ∀ (l : List ListItem) (c : Catalog), (catKeys c).Nodup →
      (catKeys (l.foldl (insDist region) c)).Nodup := by
  intro l
  induction l with
  | nil => intro c h; exact h
  | cons x t ih =>
      intro c h
      exact ih _ (catKeys_nodup_catInsert c x.id (mkDistribution x region) h)

theorem catLookup_foldl_insDist_origin (region : String) :
    ∀ (l : List ListItem) (c : Catalog) (k : String) (d : Distribution),
      catLookup (l.foldl (insDist region) c) k = Option.some d →
      (∃ it, it ∈ l ∧ d = mkDistribution it region) ∨ catLookup c k = Option.some d := by
  intro l
  induction l with
  | nil => intro c k d h; exact Or.inr h
  | cons x t ih =>
      intro c k d h
      simp only [List.foldl_cons] at h
      rcases ih _ k d h with ⟨it, hmem, hd⟩ | hbase
      · exact Or.inl ⟨it, List.mem_cons_of_mem x hmem, hd⟩
      · by_cases hk : k = x.id
        · subst hk
          rw [insDist, catLookup_catInsert_self] at hbase
          exact Or.inl ⟨x, List.mem_cons_self x t, (Option.some.injEq _ _).mp hbase.symm⟩
        · rw [insDist, catLookup_catInsert_ne _ _ _ _ hk] at hbase
          exact Or.inr hbase

theorem preservesSkeleton_listTagsForResourceBody (client : CloudFrontClient) :
    PreservesSkeleton (listTagsForResourceBody client) := by
  intro d
  unfold listTagsForResourceBody
  cases client.listTagsForResource d.arn with
  | ok items => exact ⟨rfl, rfl, rfl, rfl⟩
  | error e => exact ⟨rfl, rfl, rfl, rfl⟩

/-- `__get_distribution_config__` only mutates enrichment fields of records
already present: key set, `id`, `arn`, `region` and `origins` are untouched,
along every exit path of the function (including every partial-failure
path). -/
theorem skeletonEq_getDistributionConfigBody (client : CloudFrontClient)
    (distribution_id _region : String) (cat : Catalog) :
    SkeletonEq cat (getDistributionConfigBody client distribution_id _region cat) := by
  unfold getDistributionConfigBody
  split
  · exact SkeletonEq.rfl cat
  · rename_i cfg hcfg
    have h1 := skeletonEq_catUpdateE cat distribution_id
      (fun d => { d with logging_enabled := cfg.logging_enabled })
      (fun d => ⟨rfl, rfl, rfl, rfl⟩)
    split
    · rename_i c1 e1 heq1
      rw [heq1] at h1
      exact h1
    · rename_i c1 u1 heq1
      rw [heq1] at h1
      split
      · exact h1
      · rename_i grt hgrt
        have h2 := skeletonEq_catUpdateE c1 distribution_id
          (fun d => { d with geo_restriction_type := Option.some grt })
          (fun d => ⟨rfl, rfl, rfl, rfl⟩)
        split
        · rename_i c2 e2 heq2
          rw [heq2] at h2
          exact h1.trans h2
        · rename_i c2 u2 heq2
          rw [heq2] at h2
          have h3 := skeletonEq_catUpdateE c2 distribution_id
            (fun d => { d with web_acl_id := cfg.web_acl_id })
            (fun d => ⟨rfl, rfl, rfl, rfl⟩)
          split
          · rename_i c3 e3 heq3
            rw [heq3] at h3
            exact (h1.trans h2).trans h3
          · rename_i c3 u3 heq3
            rw [heq3] at h3
            split
            · exact (h1.trans h2).trans h3
            · rename_i vpp hvpp
              split
              · exact (h1.trans h2).trans h3
              · rename_i fle hfle
                refine ((h1.trans h2).trans h3).trans ?_
                exact skeletonEq_catUpdateE c3 distribution_id _
                  (fun d => ⟨rfl, rfl, rfl, rfl⟩)

/-- The catalog effect of `__list_tags_for_resource__` has the same frame
property. -/
theorem skeletonEq_listTagsForResourceStage (client : CloudFrontClient)
    (cat : Catalog) (k : String) :
    SkeletonEq cat (listTagsForResourceStage client cat k) :=
  skeletonEq_catUpdate cat k (listTagsForResourceBody client)
    (preservesSkeleton_listTagsForResourceBody client)

theorem countP_ok_add_countP_not (l : List (Except PyExc Unit)) :
    l.countP (fun x => exceptIsOk x) + l.countP (fun x => !exceptIsOk x) = l.length := by
  induction l with
  | nil => rfl
  | cons x t ih =>
      cases hx : exceptIsOk x <;> simp [List.countP_cons, hx] <;> omega

/-- The calls actually dispatched by the CloudFront enrichment stages never
change the shared catalog (they die with `TypeError` first). -/
theorem threadingFold_dispatched_state (e : Bool) :
    ∀ (items : List String) (acc : ThreadingResult Catalog),
      (items.foldl (threadingStep e dispatchedEnrichmentCall) acc).state = acc.state := by
  intro items
  induction items with
  | nil => intro acc; rfl
  | cons x t ih =>
      intro acc
      simp only [List.foldl_cons, ih]
      rfl

/-- `CloudFront.__init__` returns with the catalog exactly as the list stage
left it: both fan-out stages run, but every per-item invocation raises
`TypeError` (swallowed by the barrier), so no enrichment is ever applied. -/
theorem cloudFrontConstructor_eq_list_stage (liveDisplay : Bool)
    (audit_resources : List String) (isResourceFiltered : String → Bool)
    (client : CloudFrontClient) (region : String) :
    cloudFrontConstructor liveDisplay audit_resources isResourceFiltered client region =
      Except.ok (listDistributions audit_resources isResourceFiltered region
        client.pages []) := by
  have hstate : ∀ (items : List String) (c : Catalog),
      (threadingCallCore liveDisplay dispatchedEnrichmentCall items c).state = c := by
    intro items c
    unfold threadingCallCore
    rw [threadingFold_dispatched_state]
  unfold cloudFrontConstructor
  simp only [threadingCall, awsServiceConstructor, hstate]

/-- Safety invariant of the bounded pool: the running count never exceeds
the bound, and no invocation is lost or duplicated. -/
theorem poolReachable_invariant (poolSize n : Nat) :
    ∀ s : PoolState, PoolReachable poolSize n s →
      s.running ≤ poolSize ∧ s.pending + s.running + s.done = n := by
  intro s h
  induction h with
  | init => exact ⟨Nat.zero_le _, by simp⟩
  | step hr hstep ih =>
      cases hstep with
      | start p r d hlt =>
          refine ⟨hlt, ?_⟩
          have h2 : p + 1 + r + d = n := ih.2
          show p + (r + 1) + d = n
          omega
      | finish p r d =>
          constructor
          · have h1 : r + 1 ≤ poolSize := ih.1
            show r ≤ poolSize
            omega
          · have h2 : p + (r + 1) + d = n := ih.2
            show p + r + (d + 1) = n
            omega

/-- A complete execution of five items over a pool of two workers. -/
theorem poolReachable_two_five_complete :
    PoolReachable 2 5 ⟨0, 0, 5⟩ := by
  have s0 : PoolReachable 2 5 ⟨5, 0, 0⟩ := PoolReachable.init
  have s1 := s0.step (PoolStep.start 4 0 0 (by omega))
  have s2 := s1.step (PoolStep.start 3 1 0 (by omega))
  have s3 := s2.step (PoolStep.finish 3 1 0)
  have s4 := s3.step (PoolStep.start 2 1 1 (by omega))
  have s5 := s4.step (PoolStep.finish 2 1 1)
  have s6 := s5.step (PoolStep.start 1 1 2 (by omega))
  have s7 := s6.step (PoolStep.finish 1 1 2)
  have s8 := s7.step (PoolStep.start 0 1 3 (by omega))
  have s9 := s8.step (PoolStep.finish 0 1 3)
  exact s9.step (PoolStep.finish 0 0 4)

theorem skeletonEq_preserves_arn_prop {cat cat' : Catalog} (h : SkeletonEq cat cat')
    (a : String) (hinv : ∀ k d, catLookup cat k = Option.some d → d.arn ≠ a) :
    ∀ k d, catLookup cat' k = Option.some d → d.arn ≠ a := by
  intro k d hl
  have harn := (h.2 k).2.1
  rw [hl] at harn
  cases hv : catLookup cat k with
  | none =>
      rw [hv] at harn
      simp at harn
  | some d0 =>
      rw [hv] at harn
      have hda : d.arn = d0.arn := Option.some.inj harn
      rw [hda]
      exact hinv k d0 hv

/-! ## Concrete scenario of §8 of the specification

List stage discovers A, B, C; the scope filter accepts the ARNs of A and C;
the config call would fail for A and succeed for C. -/

def scenarioItemA : ListItem :=
  { id := "DISTA", arn := "arn-A", origins := ["o-a"] }

def scenarioItemB : ListItem :=
  { id := "DISTB", arn := "arn-B", origins := ["o-b"] }

def scenarioItemC : ListItem :=
  { id := "DISTC", arn := "arn-C", origins := ["o-c"] }

def scenarioConfigC : DistributionConfigResponse :=
  { logging_enabled := true
    geo_restriction_type_raw := "none"
    web_acl_id := "wacl"
    realtime_log_config_arn := Option.none
    viewer_protocol_policy_raw := Option.some "https-only"
    field_level_encryption_id_raw := Option.some "fle" }

def scenarioClient : CloudFrontClient :=
  { pages := [Option.some [scenarioItemA, scenarioItemB, scenarioItemC]]
    getDistributionConfig := fun i =>
      if i = "DISTC" then Except.ok scenarioConfigC else Except.error PyExc.clientError
    listTagsForResource := fun a =>
      if a = "arn-C" then Except.ok (Option.some ["tag"]) else Except.error PyExc.clientError }

def scenarioFilter : String → Bool :=
  fun a => a == "arn-A" || a == "arn-C"

/-- A client that always fails, used to instantiate universally quantified
statements at a concrete input. -/
def failingClient : CloudFrontClient :=
  { pages := []
    getDistributionConfig := fun _ => Except.error PyExc.clientError
    listTagsForResource := fun _ => Except.error PyExc.clientError }

/-! ## The claims -/

/-- Claim C4: `__threading_call__` dispatches the per-item callable exactly
once per item and returns (with an `ok` outcome, never an exception) only
after the completion loop has drained every future; on an empty item
sequence it is a no-op: the shared state is returned unchanged and the
callable is invoked zero times. -/
theorem claim_C4_dispatch_count {σ ι : Type} (svc : AWSServiceState ι)
    (call : σ → ι → σ × Except PyExc Unit) (items : List ι) (st : σ) :
    (threadingCallCore svc.live_display_enabled call items st).invoked = items.length ∧
    threadingCall svc call (Option.some items) st =
      Except.ok (threadingCallCore svc.live_display_enabled call items st) ∧
    threadingCallCore svc.live_display_enabled call [] st =
      { state := st
        invoked := 0
        results := []
        taskTotal := if svc.live_display_enabled then Option.some 0 else Option.none
        advances := 0 } := by
  refine ⟨?_, rfl, ?_⟩
  · simp [threadingCallCore, threadingFold_invoked]
  · rfl

/-- Claim C3: a per-item exception neither escapes `__threading_call__`
(the call returns `ok`), nor cancels or retries any item (each of the `n`
items is invoked exactly once), nor changes any other item's outcome (when
each item's outcome is a function `o` of the item alone, the recorded
outcomes are exactly `items.map o`, whatever the failures of the others). -/
theorem claim_C3_failure_isolation {σ ι : Type} (svc : AWSServiceState ι)
    (eff : ι → σ → σ) (o : ι → Except PyExc Unit) (items : List ι) (st : σ) :
    threadingCall svc (fun s i => (eff i s, o i)) (Option.some items) st =
      Except.ok (threadingCallCore svc.live_display_enabled
        (fun s i => (eff i s, o i)) items st) ∧
    (threadingCallCore svc.live_display_enabled
        (fun s i => (eff i s, o i)) items st).invoked = items.length ∧
    (threadingCallCore svc.live_display_enabled
        (fun s i => (eff i s, o i)) items st).results = items.map o := by
  refine ⟨rfl, ?_, ?_⟩
  · simp [threadingCallCore, threadingFold_invoked]
  · simp [threadingCallCore, threadingFold_factored_results]

/-- Claim C1 as written is false on the code: with the live display enabled,
n = 2 items of which k = 1 raises, the barrier completes (both items are
invoked) but the progress task advances once, not n = 2 times — the `update`
sits after `future.result()` inside the `try`, so a failed item never
advances the bar. -/
theorem claim_C1_counterexample :
    (threadingCallCore true
        (fun (s : Unit) (i : Nat) =>
          (s, if i = 0 then Except.error PyExc.clientError else Except.ok ()))
        [0, 1] Unit.unit).invoked = 2 ∧
    (threadingCallCore true
        (fun (s : Unit) (i : Nat) =>
          (s, if i = 0 then Except.error PyExc.clientError else Except.ok ()))
        [0, 1] Unit.unit).advances = 1 ∧
    ¬ (threadingCallCore true
        (fun (s : Unit) (i : Nat) =>
          (s, if i = 0 then Except.error PyExc.clientError else Except.ok ()))
        [0, 1] Unit.unit).advances = 2 := by
  refine ⟨rfl, rfl, ?_⟩
  decide

/-- Claim C1 amended: with progress reporting enabled, a task is created
before dispatch with total = n, the barrier completes with all n items
invoked, and the task is advanced exactly once per SUCCESSFUL item — so with
k failures it advances n − k times (failed items do not advance it). -/
theorem claim_C1_amended_advance_on_success {σ ι : Type}
    (call : σ → ι → σ × Except PyExc Unit) (items : List ι) (st : σ) :
    (threadingCallCore true call items st).taskTotal = Option.some items.length ∧
    (threadingCallCore true call items st).invoked = items.length ∧
    (threadingCallCore true call items st).advances =
      (threadingCallCore true call items st).results.countP (fun x => exceptIsOk x) ∧
    (threadingCallCore true call items st).advances +
      (threadingCallCore true call items st).results.countP (fun x => !exceptIsOk x) =
      items.length := by
  have htot : (threadingCallCore true call items st).taskTotal =
      Option.some items.length := by
    simp [threadingCallCore, threadingFold_taskTotal]
  have hinv : (threadingCallCore true call items st).invoked = items.length := by
    simp [threadingCallCore, threadingFold_invoked]
  have hadv : (threadingCallCore true call items st).advances =
      (threadingCallCore true call items st).results.countP (fun x => exceptIsOk x) := by
    unfold threadingCallCore
    exact threadingFold_advances_true call items _ (by simp)
  have hlen : (threadingCallCore true call items st).results.length = items.length := by
    simp [threadingCallCore, threadingFold_results_length]
  refine ⟨htot, hinv, hadv, ?_⟩
  rw [hadv, countP_ok_add_countP_not, hlen]

/-- Claim C7: enabling or disabling progress reporting changes nothing but
the reporting side channel — the decorated stage returns the same value and
propagates the same exception, and a fan-out stage produces the same shared
state (hence catalog), the same invocation count and the same per-item
outcomes in both modes. -/
theorem claim_C7_progress_is_pure_side_channel {σ α ι : Type}
    (func : σ → σ × Except PyExc α) (st : σ)
    (call : σ → ι → σ × Except PyExc Unit) (items : List ι) (st2 : σ) :
    (progressDecoratorRun true func st).result =
      (progressDecoratorRun false func st).result ∧
    (threadingCallCore true call items st2).state =
      (threadingCallCore false call items st2).state ∧
    (threadingCallCore true call items st2).invoked =
      (threadingCallCore false call items st2).invoked ∧
    (threadingCallCore true call items st2).results =
      (threadingCallCore false call items st2).results := by
  refine ⟨rfl, ?_⟩
  unfold threadingCallCore
  exact threadingFold_enabled_irrelevant call true false items _ _ rfl rfl rfl

/-- Claim C10: on a collector built with `global_service=True` the attribute
`regional_clients` is never assigned, so `__threading_call__` without an
explicit iterator raises `AttributeError`, which nothing in the harness
catches; on a non-global collector the same call falls back to the regional
clients and completes normally. -/
theorem claim_C10_global_service_no_iterator {σ ι : Type}
    (generated : List ι) (liveDisplay : Bool)
    (call : σ → ι → σ × Except PyExc Unit) (st : σ) :
    threadingCall (awsServiceConstructor true generated liveDisplay) call
        Option.none st = Except.error PyExc.attributeError ∧
    threadingCall (awsServiceConstructor false generated liveDisplay) call
        Option.none st =
      Except.ok (threadingCallCore liveDisplay call generated st) := by
  exact ⟨rfl, rfl⟩

/-- Claim C8: the worker bound is the fixed constant `MAX_WORKERS = 10`, set
once per collector at construction (not scaled by item count); in the
bounded-pool model with bound 2 and 5 items, every reachable state has at
most 2 invocations running and all 5 invocations accounted for, and an
execution completing all 5 exists. -/
theorem claim_C8_bounded_concurrency :
    MAX_WORKERS = 10 ∧
    (∀ (g : Bool) (gen : List String) (ld : Bool),
      (awsServiceConstructor g gen ld).pool_max_workers = MAX_WORKERS) ∧
    (∀ s : PoolState, PoolReachable 2 5 s →
      s.running ≤ 2 ∧ s.pending + s.running + s.done = 5) ∧
    (∃ s : PoolState, PoolReachable 2 5 s ∧ s.done = 5 ∧ s.running = 0 ∧
      s.pending = 0) := by
  refine ⟨rfl, fun g gen ld => rfl, poolReachable_invariant 2 5, ?_⟩
  exact ⟨⟨0, 0, 5⟩, poolReachable_two_five_complete, rfl, rfl, rfl⟩

/-- Witness for claim C8 at the initial state of the 2-worker, 5-item pool. -/
theorem claim_C8_bounded_concurrency_witness :
    ({ pending := 5, running := 0, done := 0 } : PoolState).running ≤ 2 ∧
    MAX_WORKERS = 10 :=
  ⟨(claim_C8_bounded_concurrency.2.2.1 { pending := 5, running := 0, done := 0 }
      PoolReachable.init).1,
    claim_C8_bounded_concurrency.1⟩

/-- Claim C9: the list stage keys the catalog by distribution Id and a later
in-scope occurrence of an Id silently overwrites the earlier record — for
every Id, the catalog maps it to the record built from the LAST in-scope
occurrence in page order (and to nothing if there is none), the stage
returns without error, and the key set has no duplicates. -/
theorem claim_C9_duplicate_id_last_wins (audit_resources : List String)
    (isResourceFiltered : String → Bool) (region : String)
    (pages : List (Option (List ListItem))) (k : String) :
    catLookup (listDistributions audit_resources isResourceFiltered region pages []) k =
      (((inScopeItems audit_resources isResourceFiltered pages).filter
        (fun it => it.id == k)).getLast?).map (fun it => mkDistribution it region) ∧
    (catKeys (listDistributions audit_resources isResourceFiltered region
      pages [])).Nodup := by
  constructor
  · rw [listDistributions_eq_foldl_inScope, catLookup_foldl_insDist]
    cases ((inScopeItems audit_resources isResourceFiltered pages).filter
        (fun it => it.id == k)).getLast? with
    | none => rfl
    | some it => rfl
  · rw [listDistributions_eq_foldl_inScope]
    exact catKeys_nodup_foldl_insDist region _ [] List.nodup_nil

/-- Claim C6: the enrichment stages never remove a catalog entry and never
insert a new identifier — the key set is preserved — and they only update
enrichment fields, leaving each record's `id`, `arn` (and `region`,
`origins`) unchanged, along every execution path; the calls as actually
dispatched by `CloudFront.__init__` leave the catalog entirely unchanged. -/
theorem claim_C6_enrichment_preserves_identifiers (client : CloudFrontClient)
    (distribution_id region k : String) (cat : Catalog) (d : Distribution) :
    SkeletonEq cat (getDistributionConfigBody client distribution_id region cat) ∧
    SkeletonEq cat (listTagsForResourceStage client cat k) ∧
    (listTagsForResourceBody client d).id = d.id ∧
    (listTagsForResourceBody client d).arn = d.arn ∧
    (dispatchedEnrichmentCall cat k).1 = cat :=
  ⟨skeletonEq_getDistributionConfigBody client distribution_id region cat,
    skeletonEq_listTagsForResourceStage client cat k,
    (preservesSkeleton_listTagsForResourceBody client d).1,
    (preservesSkeleton_listTagsForResourceBody client d).2.1,
    rfl⟩

/-- Claim C5: when the audit-resources scope filter is configured
(`audit_resources` non-empty) and rejects an ARN, no record with that ARN is
ever inserted by the list stage; the enrichment stages only touch existing
records without changing any ARN, so no record with that ARN appears in the
catalog at any stage boundary of the collector's lifetime, including the
final catalog of `CloudFront.__init__`. -/
theorem claim_C5_filtered_resource_never_in_catalog
    (audit_resources : List String) (isResourceFiltered : String → Bool)
    (region a : String) (pages : List (Option (List ListItem)))
    (client : CloudFrontClient) (liveDisplay : Bool)
    (har : audit_resources ≠ [])
    (hfa : isResourceFiltered a = false) :
    (∀ k d, catLookup (listDistributions audit_resources isResourceFiltered
        region pages []) k = Option.some d → d.arn ≠ a) ∧
    (∀ cat : Catalog, (∀ k d, catLookup cat k = Option.some d → d.arn ≠ a) →
      (∀ did k d, catLookup (getDistributionConfigBody client did region cat) k =
          Option.some d → d.arn ≠ a) ∧
      (∀ k0 k d, catLookup (listTagsForResourceStage client cat k0) k =
          Option.some d → d.arn ≠ a)) ∧
    (∀ res, cloudFrontConstructor liveDisplay audit_resources isResourceFiltered
        client region = Except.ok res →
      ∀ k d, catLookup res k = Option.some d → d.arn ≠ a) := by
  have hlist : ∀ k d, catLookup (listDistributions audit_resources
      isResourceFiltered region pages []) k = Option.some d → d.arn ≠ a := by
    intro k d hl
    rw [listDistributions_eq_foldl_inScope] at hl
    rcases catLookup_foldl_insDist_origin region _ [] k d hl with ⟨it, hmem, hd⟩ | hbase
    · have hchk : inScopeCheck audit_resources isResourceFiltered it = true :=
        (List.mem_filter.mp hmem).2
      have hemp : audit_resources.isEmpty = false := by
        cases audit_resources with
        | nil => exact absurd rfl har
        | cons x t => rfl
      rw [inScopeCheck, hemp, Bool.false_or] at hchk
      rw [hd]
      intro hcontra
      have hcontra' : it.arn = a := hcontra
      rw [hcontra', hfa] at hchk
      cases hchk
    · cases hbase
  have hlist2 : ∀ k d, catLookup (listDistributions audit_resources
      isResourceFiltered region client.pages []) k = Option.some d → d.arn ≠ a := by
    intro k d hl
    rw [listDistributions_eq_foldl_inScope] at hl
    rcases catLookup_foldl_insDist_origin region _ [] k d hl with ⟨it, hmem, hd⟩ | hbase
    · have hchk : inScopeCheck audit_resources isResourceFiltered it = true :=
        (List.mem_filter.mp hmem).2
      have hemp : audit_resources.isEmpty = false := by
        cases audit_resources with
        | nil => exact absurd rfl har
        | cons x t => rfl
      rw [inScopeCheck, hemp, Bool.false_or] at hchk
      rw [hd]
      intro hcontra
      have hcontra' : it.arn = a := hcontra
      rw [hcontra', hfa] at hchk
      cases hchk
    · cases hbase
  refine ⟨hlist, ?_, ?_⟩
  · intro cat hcat
    constructor
    · intro did k d
      exact skeletonEq_preserves_arn_prop
        (skeletonEq_getDistributionConfigBody client did region cat) a hcat k d
    · intro k0 k d
      exact skeletonEq_preserves_arn_prop
        (skeletonEq_listTagsForResourceStage client cat k0) a hcat k d
  · intro res hres
    rw [cloudFrontConstructor_eq_list_stage] at hres
    have hres' := Except.ok.inj hres
    rw [← hres']
    exact hlist2

/-- Witness for claim C5: filter configured to accept only `arn-C`; the one
in-scope record's ARN is provably not the rejected `arn-A`. -/
theorem claim_C5_filtered_resource_never_in_catalog_witness :
    (mkDistribution { id := "DISTC", arn := "arn-C", origins := [] } "r").arn ≠
      "arn-A" :=
  (claim_C5_filtered_resource_never_in_catalog ["arn-C"] (fun s => s == "arn-C")
      "r" "arn-A" [Option.some [{ id := "DISTC", arn := "arn-C", origins := [] }]]
      failingClient false (by decide) (by decide)).1
    "DISTC" (mkDistribution { id := "DISTC", arn := "arn-C", origins := [] } "r")
    (by decide)

/-- Claim C2's scenario, evaluated on the code as written: the constructor
returns normally (no exception escapes) with a catalog holding exactly A and
C — but C carries only list-stage fields: every field the enrichment stages
would set is still at its default, because the `args=(client, region)`
keyword at the `__threading_call__` call sites never reaches the per-item
functions and every dispatched invocation dies with a swallowed `TypeError`.
The last conjunct shows the enrichment body itself, applied directly to the
list-stage catalog, WOULD have enriched C — the data is there; the dispatch
is what loses it. -/
theorem claim_C2_scenario_enrichment_lost :
    cloudFrontConstructor false ["arn-A", "arn-C"] scenarioFilter scenarioClient
        "us-east-1" =
      Except.ok [("DISTA", mkDistribution scenarioItemA "us-east-1"),
        ("DISTC", mkDistribution scenarioItemC "us-east-1")] ∧
    (mkDistribution scenarioItemC "us-east-1").logging_enabled = false ∧
    (mkDistribution scenarioItemC "us-east-1").default_cache_config = Option.none ∧
    (mkDistribution scenarioItemC "us-east-1").geo_restriction_type = Option.none ∧
    (mkDistribution scenarioItemC "us-east-1").web_acl_id = "" ∧
    (mkDistribution scenarioItemC "us-east-1").tags = Option.some [] ∧
    catLookup (listDistributions ["arn-A", "arn-C"] scenarioFilter "us-east-1"
        scenarioClient.pages []) "DISTB" = Option.none ∧
    catLookup (getDistributionConfigBody scenarioClient "DISTC" "us-east-1"
        (listDistributions ["arn-A", "arn-C"] scenarioFilter "us-east-1"
          scenarioClient.pages [])) "DISTC" =
      Option.some
        { arn := "arn-C"
          id := "DISTC"
          region := "us-east-1"
          logging_enabled := true
          default_cache_config := Option.some
            ⟨Option.none, ViewerProtocolPolicy.https_only, "fle"⟩
          geo_restriction_type := Option.some GeoRestrictionType.none
          origins := ["o-c"]
          web_acl_id := "wacl"
          tags := Option.some [] } := by
  refine ⟨by decide, rfl, rfl, rfl, rfl, rfl, by decide, by decide⟩
